import Mathlib

/-!
Verification of the stock-portfolio application core against its
natural-language specification.

Shallow embedding conventions:
- Python floats (shares, prices, dollar values) are modelled as exact
  rationals (ℚ).
- Python dicts are modelled as association lists (`List (String × _)`)
  with Python-dict semantics: lookup finds the first matching key,
  assignment replaces the value in place preserving insertion order,
  and a fresh key is appended at the end; `del` removes the entry.
- Timestamps (`datetime.now()`, cache timestamps) are seconds as `Nat`,
  supplied as explicit `now` parameters.
- Calendar dates are day numbers as `Nat`; day 0 is a Monday, so a day
  `d` is a weekday (Monday–Friday) iff `d % 7 < 5`, matching pandas
  `Timestamp.weekday() < 5`.
- The external market-data provider (yfinance) is abstracted as a
  function argument supplying per-symbol quotes / bar series; the
  repository code downstream of those calls is embedded faithfully.
-/

/-- Python-dict lookup on an association list: first entry whose key
matches. -/
def alistLookup (l : List (String × α)) (k : String) : Option α :=
  match l with
  | [] => none
  | (k₁, v₁) :: t => if k₁ = k then some v₁ else alistLookup t k

/-- Python-dict assignment `d[k] = v`: replace in place if the key is
present (preserving position), otherwise append at the end. -/
def alistInsert (l : List (String × α)) (k : String) (v : α) : List (String × α) :=
  match l with
  | [] => [(k, v)]
  | (k₁, v₁) :: t => if k₁ = k then (k, v) :: t else (k₁, v₁) :: alistInsert t k v

/-- Python-dict deletion `del d[k]`: drop the first entry whose key
matches. -/
def alistErase (l : List (String × α)) (k : String) : List (String × α) :=
  match l with
  | [] => []
  | (k₁, v₁) :: t => if k₁ = k then t else (k₁, v₁) :: alistErase t k

/-- A holding of one symbol inside a portfolio: share count,
weighted-average purchase price, and last-updated timestamp
(`portfolio_manager.py` stock entry). -/
structure Holding where
  shares : ℚ
  avg_price : ℚ
  last_updated : Nat
deriving DecidableEq, Repr

/-- A named portfolio's contents: symbol → holding mapping plus
creation timestamp (`portfolio_manager.py` portfolio entry). -/
structure Portfolio where
  stocks : List (String × Holding)
  created_date : Nat
deriving DecidableEq, Repr

/-- The in-memory `st.session_state.portfolios` mapping. -/
abbrev Portfolios := List (String × Portfolio)

namespace PortfolioManager

/-- `PortfolioManager.add_stock` (portfolio_manager.py:102-132), acting
on the in-memory session state. If the portfolio exists: merge into an
existing position by weighted average, or create a new position, and
return `true`; otherwise leave the state unchanged and return `false`.
The persistence call it then makes is modelled in
`add_stockWithStore`. -/
def add_stock (st : Portfolios) (portfolio_name symbol : String)
    (shares avg_price : ℚ) (now : Nat) : Portfolios × Bool :=
  match alistLookup st portfolio_name with
  | some portfolio =>
    let newStocks :=
      match alistLookup portfolio.stocks symbol with
      | some existing =>
        let total_shares := existing.shares + shares
        let total_cost := existing.shares * existing.avg_price + shares * avg_price
        let new_avg_price := total_cost / total_shares
        alistInsert portfolio.stocks symbol
          ⟨total_shares, new_avg_price, now⟩
      | none =>
        alistInsert portfolio.stocks symbol ⟨shares, avg_price, now⟩
    (alistInsert st portfolio_name { portfolio with stocks := newStocks }, true)
  | none => (st, false)

/-- `PortfolioManager.remove_stock` (portfolio_manager.py:134-146). -/
def remove_stock (st : Portfolios) (portfolio_name symbol : String) :
    Portfolios × Bool :=
  match alistLookup st portfolio_name with
  | some portfolio =>
    match alistLookup portfolio.stocks symbol with
    | some _ =>
      (alistInsert st portfolio_name
        { portfolio with stocks := alistErase portfolio.stocks symbol }, true)
    | none => (st, false)
  | none => (st, false)

/-- `PortfolioManager.update_stock` (portfolio_manager.py:148-164):
direct replacement of the position, no merging. -/
def update_stock (st : Portfolios) (portfolio_name symbol : String)
    (shares avg_price : ℚ) (now : Nat) : Portfolios × Bool :=
  match alistLookup st portfolio_name with
  | some portfolio =>
    match alistLookup portfolio.stocks symbol with
    | some _ =>
      (alistInsert st portfolio_name
        { portfolio with
            stocks := alistInsert portfolio.stocks symbol ⟨shares, avg_price, now⟩ },
       true)
    | none => (st, false)
  | none => (st, false)

/-- `PortfolioManager.delete_portfolio` (portfolio_manager.py:90-100). -/
def delete_portfolio (st : Portfolios) (name : String) : Portfolios × Bool :=
  match alistLookup st name with
  | some _ => (alistErase st name, true)
  | none => (st, false)

/-- `PortfolioManager.add_stock` together with the persistence call it
makes (portfolio_manager.py:127-130): the session state is mutated
first, then `supabase_manager.add_stock` (or `save_portfolios`) is
invoked; `storeOk` is the success flag of that write, which the source
discards — the returned state and `True` do not depend on it. -/
def add_stockWithStore (storeOk : Bool) (st : Portfolios)
    (portfolio_name symbol : String) (shares avg_price : ℚ) (now : Nat) :
    Portfolios × Bool :=
  match alistLookup st portfolio_name with
  | some portfolio =>
    let newStocks :=
      match alistLookup portfolio.stocks symbol with
      | some existing =>
        let total_shares := existing.shares + shares
        let total_cost := existing.shares * existing.avg_price + shares * avg_price
        let new_avg_price := total_cost / total_shares
        alistInsert portfolio.stocks symbol
          ⟨total_shares, new_avg_price, now⟩
      | none =>
        alistInsert portfolio.stocks symbol ⟨shares, avg_price, now⟩
    let newSt := alistInsert st portfolio_name { portfolio with stocks := newStocks }
    let _writeResult := storeOk
    (newSt, true)
  | none => (st, false)

end PortfolioManager

namespace SupabaseManager

/-- The merged position computed by `SupabaseManager.add_stock` for an
existing stock row (supabase_manager.py:191-198): resulting
`(shares, avg_price)`. -/
def mergedStock (existing_shares existing_avg_price shares avg_price : ℚ) : ℚ × ℚ :=
  let total_shares := existing_shares + shares
  let total_cost := existing_shares * existing_avg_price + shares * avg_price
  let new_avg_price := total_cost / total_shares
  (total_shares, new_avg_price)

end SupabaseManager

/-- The holding stored for `symbol` inside portfolio `pname`, if any. -/
def holdingOf (st : Portfolios) (pname symbol : String) : Option Holding :=
  (alistLookup st pname).bind fun p => alistLookup p.stocks symbol

namespace StockDataManager

/-- `self.cache_duration = 300` (stock_data.py:9). -/
def cache_duration : Nat := 300

/-- The `price_cache`: cache key → (cached price, timestamp). -/
abbrev PriceCache := List (String × (ℚ × Nat))

/-- The cache-freshness test of `get_current_price` (stock_data.py:20):
`(datetime.now() - timestamp).seconds < self.cache_duration`. A Python
`timedelta`'s `.seconds` attribute is the seconds component after whole
days are removed, i.e. total elapsed seconds modulo 86400 (for the
non-negative deltas that occur here). -/
def cacheFresh (now timestamp : Nat) : Bool :=
  (now - timestamp) % 86400 < cache_duration

/-- `StockDataManager.get_current_price` (stock_data.py:13-48), with the
yfinance quote lookup (info fields / recent close) abstracted as
`provider`. Returns the price (if any) and the updated cache: a fresh
cache entry under key `symbol ++ "_price"` is returned as-is; otherwise
the provider is consulted and a non-`none` result is cached with the
current timestamp. -/
def get_current_price (provider : String → Option ℚ) (now : Nat)
    (cache : PriceCache) (symbol : String) : Option ℚ × PriceCache :=
  let cache_key := symbol ++ "_price"
  let fetch : Option ℚ × PriceCache :=
    match provider symbol with
    | some current_price =>
      (some current_price, alistInsert cache cache_key (current_price, now))
    | none => (none, cache)
  match alistLookup cache cache_key with
  | some (cached_data, timestamp) =>
    if cacheFresh now timestamp then (some cached_data, cache) else fetch
  | none => fetch

/-- `get_current_price` reaches its fetch path for `symbol` at time
`now`: the cache holds no entry for the symbol's key, or the entry
fails the freshness test of stock_data.py:20. -/
def cacheMiss (cache : PriceCache) (symbol : String) (now : Nat) : Bool :=
  match alistLookup cache (symbol ++ "_price") with
  | some (_, timestamp) => !(cacheFresh now timestamp)
  | none => true

/-- The summary dict returned by
`StockDataManager.calculate_portfolio_value` (stock_data.py:147-152). -/
structure PortfolioSummary where
  total_value : ℚ
  total_cost : ℚ
  total_gain_loss : ℚ
  total_gain_loss_pct : ℚ
deriving DecidableEq, Repr

/-- The accumulation loop of `calculate_portfolio_value`
(stock_data.py:135-145): running `(total_value, total_cost)`; a holding
whose current price is unavailable contributes nothing. `price` stands
for `get_current_price` restricted to its returned value. -/
def valueTotals (price : String → Option ℚ) (stocks : List (String × Holding)) :
    ℚ × ℚ :=
  stocks.foldl
    (fun acc x =>
      match price x.1 with
      | some current_price =>
        (acc.1 + current_price * x.2.shares, acc.2 + x.2.avg_price * x.2.shares)
      | none => acc)
    (0, 0)

/-- `StockDataManager.calculate_portfolio_value` (stock_data.py:130-152). -/
def calculate_portfolio_value (price : String → Option ℚ)
    (stocks : List (String × Holding)) : PortfolioSummary :=
  let t := valueTotals price stocks
  { total_value := t.1
    total_cost := t.2
    total_gain_loss := t.1 - t.2
    total_gain_loss_pct := if t.2 > 0 then (t.1 - t.2) / t.2 * 100 else 0 }

end StockDataManager

/-- The per-holding percentage computed in `show_portfolio_overview`
(app.py:165): `(gain_loss / cost_basis) * 100 if cost_basis > 0 else 0`. -/
def gainLossPct (gain_loss cost_basis : ℚ) : ℚ :=
  if cost_basis > 0 then gain_loss / cost_basis * 100 else 0

namespace ChartManager

/-- One daily bar of a historical price series, restricted to the two
fields the portfolio-performance aligner reads (`Date` and `Close`;
open/high/low/volume are never consulted in charts.py:107-205). -/
structure Bar where
  date : Nat
  close : ℚ
deriving DecidableEq, Repr

/-- Absolute day difference between two dates. -/
def dist (a b : Nat) : Nat := max a b - min a b

/-- `StockDataManager.get_historical_data` (stock_data.py:50-77) with
the yfinance fetch abstracted as `hist`: an empty result is reported as
`none` (`if hist.empty: return None`). The TTL cache on this path only
affects freshness of the data, not the alignment logic, and is not
modelled. -/
def get_historical_data (hist : String → List Bar) (symbol : String) :
    Option (List Bar) :=
  if (hist symbol).isEmpty then none else some (hist symbol)

/-- `StockDataManager.get_portfolio_historical_data`
(stock_data.py:154-163): symbols whose fetch returns no data are left
out of the resulting mapping. -/
def get_portfolio_historical_data (hist : String → List Bar)
    (symbols : List String) : List (String × List Bar) :=
  symbols.filterMap fun s => (get_historical_data hist s).map fun d => (s, d)

/-- `stock_data['Date'].sub(date).abs().idxmin()` followed by `.iloc`
(charts.py:142-145): the first bar of the series attaining the minimal
absolute day distance to `d` (pandas `idxmin` returns the first index
of the minimum, so ties resolve to the earlier row). -/
def closestBar (series : List Bar) (d : Nat) : Option Bar :=
  series.foldl
    (fun acc b =>
      match acc with
      | none => some b
      | some c => if dist b.date d < dist c.date d then some b else acc)
    none

/-- Minimum of a series' dates (`data['Date'].min()`); series reaching
the aligner are nonempty, `0` is a junk default. -/
def minDate : List Bar → Nat
  | [] => 0
  | b :: t => t.foldl (fun m x => min m x.date) b.date

/-- Maximum of a series' dates (`data['Date'].max()`). -/
def maxDate : List Bar → Nat
  | [] => 0
  | b :: t => t.foldl (fun m x => max m x.date) b.date

/-- `pd.date_range(start, end, freq='D')`: every day from `start` to
`stop` inclusive (empty when `stop < start`). -/
def dateRange (start stop : Nat) : List Nat :=
  (List.range (stop + 1 - start)).map (· + start)

/-- `date.weekday() < 5` under the day-0-is-Monday convention. -/
def isWeekday (d : Nat) : Bool := d % 7 < 5

/-- The inner per-date loop of `create_portfolio_performance_chart`
(charts.py:136-150): fold over the holdings, accumulating
`price_at_closest_date * shares`. A holding whose symbol is absent from
`allData` is skipped (`if symbol in all_data:`); a holding whose
closest available date is more than 7 days away invalidates the whole
date (`valid_date = False; break`), reported as `none`. -/
def dailyValueAux (allData : List (String × List Bar)) (d : Nat) :
    List (String × ℚ) → ℚ → Option ℚ
  | [], daily_value => some daily_value
  | (symbol, shares) :: rest, daily_value =>
    match alistLookup allData symbol with
    | none => dailyValueAux allData d rest daily_value
    | some stock_data =>
      match closestBar stock_data d with
      | none => none
      | some bar =>
        if dist bar.date d ≤ 7 then
          dailyValueAux allData d rest (daily_value + bar.close * shares)
        else none

/-- Portfolio value at candidate date `d`, or `none` when the date is
invalid. -/
def dailyValue (allData : List (String × List Bar))
    (stocksInfo : List (String × ℚ)) (d : Nat) : Option ℚ :=
  dailyValueAux allData d stocksInfo 0

/-- The emission loop of `create_portfolio_performance_chart`
(charts.py:133-154): weekday candidates only, and a `(date, value)`
point is appended only when the date is valid and the accumulated value
is positive. -/
def portfolioValues (allData : List (String × List Bar))
    (stocksInfo : List (String × ℚ)) (start stop : Nat) : List (Nat × ℚ) :=
  (dateRange start stop).filterMap fun d =>
    if isWeekday d then
      match dailyValue allData stocksInfo d with
      | some v => if v > 0 then some (d, v) else none
      | none => none
    else none

/-- `ChartManager.create_portfolio_performance_chart`
(charts.py:107-157) up to the emitted `(date, portfolio_value)` series
(the plotting beyond that point only renders it). `stocksInfo` maps each
held symbol to its share count (`stock_info['shares']`). Returns `[]`
when the source returns `None` (no data at all) or emits no points.
The window is `start = max` of per-symbol minimum dates, `stop = min`
of per-symbol maximum dates (charts.py:117-127). -/
def create_portfolio_performance_chart (hist : String → List Bar)
    (symbols : List String) (stocksInfo : List (String × ℚ)) : List (Nat × ℚ) :=
  match get_portfolio_historical_data hist symbols with
  | [] => []
  | (s₀, d₀) :: rest =>
    let allData := (s₀, d₀) :: rest
    let start := rest.foldl (fun m x => max m (minDate x.2)) (minDate d₀)
    let stop := rest.foldl (fun m x => min m (maxDate x.2)) (maxDate d₀)
    portfolioValues allData stocksInfo start stop

/-- The percent-change series of charts.py:172-174: built only when
there is more than one value, baselined at the first emitted value. -/
def pctChanges (portfolio_values : List ℚ) : List ℚ :=
  match portfolio_values with
  | [] => []
  | initial_value :: _ =>
    if portfolio_values.length > 1 then
      portfolio_values.map fun val => (val - initial_value) / initial_value * 100
    else []

end ChartManager

/-- Concrete scenario for C3: symbol "A" has a single bar at day 0
(a Monday) closing at 10; symbol "B" has no historical data at all. -/
def histC3 : String → List ChartManager.Bar :=
  fun s => if s = "A" then [⟨0, 10⟩] else []

/-- Concrete scenario for C4's gap clause: symbol "A" has bars only at
day 0 (close 10) and day 11 (close 20), so days 1..10 are a
10-calendar-day gap with no data. -/
def histC4 : String → List ChartManager.Bar :=
  fun s => if s = "A" then [⟨0, 10⟩, ⟨11, 20⟩] else []

/-- Concrete scenario for C4's tolerance clause: symbol "A" has bars
only at day 0 and day 20; candidate day 10 is 10 days from both. -/
def histC4w : String → List ChartManager.Bar :=
  fun s => if s = "A" then [⟨0, 10⟩, ⟨20, 20⟩] else []

/-- Concrete scenario for C7: symbol "A" has bars at days 0 and 1
closing at 10 and 20, giving a two-point emitted series. -/
def histC7 : String → List ChartManager.Bar :=
  fun s => if s = "A" then [⟨0, 10⟩, ⟨1, 20⟩] else []

/-! ## Helper lemmas -/

@[simp] theorem alistLookup_insert_self (l : List (String × α)) (k : String) (v : α) :
    alistLookup (alistInsert l k v) k = some v := by
  induction l with
  | nil => simp [alistInsert, alistLookup]
  | cons p t ih =>
    obtain ⟨k₁, v₁⟩ := p
    by_cases h : k₁ = k <;> simp [alistInsert, alistLookup, h, ih]

/-- The accumulation loop splits as initial totals plus the sums over
the successfully-priced holdings. -/
theorem valueTotals_foldl_spec (price : String → Option ℚ)
    (stocks : List (String × Holding)) (init : ℚ × ℚ) :
    stocks.foldl
      (fun acc x =>
        match price x.1 with
        | some current_price =>
          (acc.1 + current_price * x.2.shares, acc.2 + x.2.avg_price * x.2.shares)
        | none => acc) init =
    (init.1 + ((stocks.filter fun x => (price x.1).isSome).map
        fun x => (price x.1).getD 0 * x.2.shares).sum,
     init.2 + ((stocks.filter fun x => (price x.1).isSome).map
        fun x => x.2.avg_price * x.2.shares).sum) := by
  induction stocks generalizing init with
  | nil => simp
  | cons x t ih =>
    rcases hp : price x.1 with _ | p
    · simp [List.foldl_cons, hp, ih, List.filter_cons]
    · simp only [List.foldl_cons, hp, ih, List.filter_cons, Option.isSome_some,
        if_pos, List.map_cons, List.sum_cons, Option.getD_some]
      exact Prod.ext (by ring) (by ring)

/-! ## Claim theorems -/

/-- C1: `add_stock` on a portfolio already holding the symbol with
`e > 0` shares at average price `pe` replaces the holding with
`e + a` shares at average price `(e*pe + a*pa) / (e + a)`; on a
portfolio not yet holding the symbol the holding becomes `(a, pa)`;
and `SupabaseManager.add_stock` computes the same merged position.
(Floats are modelled as exact rationals.) -/
theorem c1_add_stock_merge (st : Portfolios) (pname sym : String) (P : Portfolio)
    (e pe a pa : ℚ) (t₀ now : Nat)
    (hP : alistLookup st pname = some P) (he : 0 < e) (ha : 0 < a) :
    (alistLookup P.stocks sym = some ⟨e, pe, t₀⟩ →
      holdingOf (PortfolioManager.add_stock st pname sym a pa now).1 pname sym =
        some ⟨e + a, (e * pe + a * pa) / (e + a), now⟩) ∧
    (alistLookup P.stocks sym = none →
      holdingOf (PortfolioManager.add_stock st pname sym a pa now).1 pname sym =
        some ⟨a, pa, now⟩) ∧
    SupabaseManager.mergedStock e pe a pa = (e + a, (e * pe + a * pa) / (e + a)) :=
  ⟨fun h => by simp [PortfolioManager.add_stock, hP, h, holdingOf],
   fun h => by simp [PortfolioManager.add_stock, hP, h, holdingOf],
   rfl⟩

/-- Witness for C1 at a concrete input: portfolio "P" holds "A" as
10 shares at $5; adding 10 shares at $7 yields 20 shares at $6. -/
theorem c1_add_stock_merge_witness :
    (0 : ℚ) < 10 ∧
    alistLookup ([("P", ⟨[("A", ⟨10, 5, 0⟩)], 0⟩)] : Portfolios) "P" =
      some ⟨[("A", ⟨10, 5, 0⟩)], 0⟩ ∧
    holdingOf
      (PortfolioManager.add_stock [("P", ⟨[("A", ⟨10, 5, 0⟩)], 0⟩)] "P" "A" 10 7 1).1
      "P" "A" = some ⟨10 + 10, (10 * 5 + 10 * 7) / (10 + 10), 1⟩ :=
  ⟨by norm_num, rfl,
   (c1_add_stock_merge [("P", ⟨[("A", ⟨10, 5, 0⟩)], 0⟩)] "P" "A"
      ⟨[("A", ⟨10, 5, 0⟩)], 0⟩ 10 5 10 7 0 1 rfl (by norm_num) (by norm_num)).1 rfl⟩

/-- C2: with `cost_basis = 0` the per-holding `gain_loss_pct` of
`show_portfolio_overview` is exactly 0, and with total cost 0 the
`total_gain_loss_pct` of `calculate_portfolio_value` is exactly 0;
neither divides (the guard takes the `else 0` branch). -/
theorem c2_zero_cost_basis_guard (g cb : ℚ) (price : String → Option ℚ)
    (stocks : List (String × Holding)) (hcb : cb = 0)
    (hc : (StockDataManager.calculate_portfolio_value price stocks).total_cost = 0) :
    gainLossPct g cb = 0 ∧
    (StockDataManager.calculate_portfolio_value price stocks).total_gain_loss_pct = 0 := by
  subst hcb
  refine ⟨by simp [gainLossPct], ?_⟩
  simp only [StockDataManager.calculate_portfolio_value] at hc ⊢
  rw [hc]
  simp

/-- Witness for C2 at a concrete input: a holding of 1 share at average
price 0 with no price available; both cost totals are 0 and both
percentages evaluate to 0. -/
theorem c2_zero_cost_basis_guard_witness :
    (0 : ℚ) = 0 ∧
    (StockDataManager.calculate_portfolio_value (fun _ => none)
      [("A", ⟨1, 0, 0⟩)]).total_cost = 0 ∧
    gainLossPct 3 0 = 0 ∧
    (StockDataManager.calculate_portfolio_value (fun _ => none)
      [("A", ⟨1, 0, 0⟩)]).total_gain_loss_pct = 0 :=
  ⟨rfl, rfl,
   c2_zero_cost_basis_guard 3 0 (fun _ => none) [("A", ⟨1, 0, 0⟩)] rfl rfl⟩

/-- C5: `calculate_portfolio_value` never aborts on an unpriced holding:
its total value and total cost are exactly the sums of
`current_price * shares` and `avg_price * shares` over the holdings
whose price lookup succeeded. -/
theorem c5_totals_over_priced_holdings (price : String → Option ℚ)
    (stocks : List (String × Holding)) :
    (StockDataManager.calculate_portfolio_value price stocks).total_value =
      ((stocks.filter fun x => (price x.1).isSome).map
        fun x => (price x.1).getD 0 * x.2.shares).sum ∧
    (StockDataManager.calculate_portfolio_value price stocks).total_cost =
      ((stocks.filter fun x => (price x.1).isSome).map
        fun x => x.2.avg_price * x.2.shares).sum := by
  constructor <;>
    simp [StockDataManager.calculate_portfolio_value, StockDataManager.valueTotals,
      valueTotals_foldl_spec]

/-- C6: merge-on-add is order-independent: adding lots `(s₁, p₁)` then
`(s₂, p₂)` to an initially empty position produces the same state as
the other order; concretely, 10 shares at $5 then 10 shares at $7
yields 20 shares at $6 in either order (the concrete conjunct below is
one of the two orders; the universal conjunct equates both). -/
theorem c6_merge_on_add_commutative :
    (∀ (s₁ p₁ s₂ p₂ : ℚ) (cd n₁ n₂ : Nat) (sym : String),
      (PortfolioManager.add_stock
        (PortfolioManager.add_stock [("P", ⟨[], cd⟩)] "P" sym s₁ p₁ n₁).1
        "P" sym s₂ p₂ n₂).1 =
      (PortfolioManager.add_stock
        (PortfolioManager.add_stock [("P", ⟨[], cd⟩)] "P" sym s₂ p₂ n₁).1
        "P" sym s₁ p₁ n₂).1) ∧
    holdingOf
      (PortfolioManager.add_stock
        (PortfolioManager.add_stock [("P", ⟨[], 0⟩)] "P" "X" 10 5 1).1
        "P" "X" 10 7 2).1 "P" "X" = some ⟨20, 6, 2⟩ := by
  constructor
  · intro s₁ p₁ s₂ p₂ cd n₁ n₂ sym
    simp only [PortfolioManager.add_stock, alistLookup, alistInsert, if_pos,
      alistLookup_insert_self]
    norm_num [Holding.mk.injEq]
    exact ⟨by ring, by ring⟩
  · norm_num [PortfolioManager.add_stock, alistLookup, alistInsert, holdingOf]

/-- C9 (code bug): `add_stock` mutates the in-memory session state and
reports success even when the persistent write fails (`storeOk = false`):
starting from a portfolio "P" with no holdings, the failed write still
leaves "A" in the in-memory view, which therefore differs from the
pre-call state. -/
theorem c9_optimistic_update_bug :
    PortfolioManager.add_stockWithStore false [("P", ⟨[], 0⟩)] "P" "A" 1 2 5 =
      ([("P", ⟨[("A", ⟨1, 2, 5⟩)], 0⟩)], true) ∧
    ([("P", ⟨[("A", ⟨1, 2, 5⟩)], 0⟩)] : Portfolios) ≠ [("P", ⟨[], 0⟩)] := by
  constructor
  · rfl
  · decide

/-- C10: every mutation on a missing portfolio name returns `false` and
leaves the whole state unchanged; `remove_stock` and `update_stock` on
an existing portfolio that does not hold the symbol likewise return
`false` without mutating anything. -/
theorem c10_missing_target_noop (st : Portfolios) (pname sym : String)
    (sh pr : ℚ) (now : Nat) :
    (alistLookup st pname = none →
      PortfolioManager.add_stock st pname sym sh pr now = (st, false) ∧
      PortfolioManager.update_stock st pname sym sh pr now = (st, false) ∧
      PortfolioManager.remove_stock st pname sym = (st, false) ∧
      PortfolioManager.delete_portfolio st pname = (st, false)) ∧
    (∀ P, alistLookup st pname = some P → alistLookup P.stocks sym = none →
      PortfolioManager.remove_stock st pname sym = (st, false) ∧
      PortfolioManager.update_stock st pname sym sh pr now = (st, false)) := by
  constructor
  · intro h
    refine ⟨?_, ?_, ?_, ?_⟩ <;>
      simp [PortfolioManager.add_stock, PortfolioManager.update_stock,
        PortfolioManager.remove_stock, PortfolioManager.delete_portfolio, h]
  · intro P hP hs
    constructor <;>
      simp [PortfolioManager.update_stock, PortfolioManager.remove_stock, hP, hs]

/-- Witness for C10 at concrete inputs: the store holds only portfolio
"Q" with no holdings; mutations addressed to the missing portfolio "P",
and to the missing symbol "A" of "Q", are rejected without mutation. -/
theorem c10_missing_target_noop_witness :
    (alistLookup ([("Q", ⟨[], 0⟩)] : Portfolios) "P" = none ∧
     PortfolioManager.add_stock [("Q", ⟨[], 0⟩)] "P" "A" 1 2 0 =
       ([("Q", ⟨[], 0⟩)], false)) ∧
    (alistLookup ([("Q", ⟨[], 0⟩)] : Portfolios) "Q" = some ⟨[], 0⟩ ∧
     PortfolioManager.remove_stock [("Q", ⟨[], 0⟩)] "Q" "A" =
       ([("Q", ⟨[], 0⟩)], false)) :=
  ⟨⟨rfl, ((c10_missing_target_noop [("Q", ⟨[], 0⟩)] "P" "A" 1 2 0).1 rfl).1⟩,
   ⟨rfl, ((c10_missing_target_noop [("Q", ⟨[], 0⟩)] "Q" "A" 1 2 0).2
      ⟨[], 0⟩ rfl rfl).1⟩⟩

/-- C8 counterexample: the claim is false as stated. With a cache entry
for "A" written at time 0 holding price 5, a call at t=299 (a cache
hit, returning 5) and a call one second later at t=300 (the entry is
now 300s old, so the provider is consulted and returns 9) are two calls
less than 300 seconds apart that return different values. -/
theorem c8_cache_ttl_cex :
    (StockDataManager.get_current_price (fun _ => some 7) 299
        [("A_price", (5, 0))] "A").1 = some 5 ∧
    (StockDataManager.get_current_price (fun _ => some 9) 300
        (StockDataManager.get_current_price (fun _ => some 7) 299
          [("A_price", (5, 0))] "A").2 "A").1 = some 9 ∧
    300 - 299 < 300 ∧ some (5 : ℚ) ≠ some (9 : ℚ) :=
  ⟨rfl, rfl, by norm_num, by norm_num⟩

/-- C8 (amended): when the first call misses the cache and the provider
yields a price `v`, that call returns `v` and caches it; any second
call for the same symbol within 300 seconds then returns the identical
cached `v` without consulting its own provider (the conclusion holds
for every `provider₂`). -/
theorem c8_cache_ttl (provider₁ provider₂ : String → Option ℚ)
    (cache : StockDataManager.PriceCache) (symbol : String) (t₁ t₂ : Nat) (v : ℚ)
    (hmiss : StockDataManager.cacheMiss cache symbol t₁ = true)
    (hfetch : provider₁ symbol = some v)
    (h₁₂ : t₁ ≤ t₂) (hlt : t₂ - t₁ < 300) :
    (StockDataManager.get_current_price provider₁ t₁ cache symbol).1 = some v ∧
    (StockDataManager.get_current_price provider₂ t₂
      (StockDataManager.get_current_price provider₁ t₁ cache symbol).2 symbol).1 =
      some v := by
  have hpair : StockDataManager.get_current_price provider₁ t₁ cache symbol =
      (some v, alistInsert cache (symbol ++ "_price") (v, t₁)) := by
    unfold StockDataManager.get_current_price
    unfold StockDataManager.cacheMiss at hmiss
    rcases h : alistLookup cache (symbol ++ "_price") with _ | ⟨cd, ts⟩
    · simp [h, hfetch]
    · rw [h] at hmiss
      simp only [Bool.not_eq_eq_eq_not, Bool.not_true] at hmiss
      simp [h, hmiss, hfetch]
  have hfresh : StockDataManager.cacheFresh t₂ t₁ = true := by
    have hmod : (t₂ - t₁) % 86400 = t₂ - t₁ :=
      Nat.mod_eq_of_lt (lt_trans hlt (by norm_num))
    simp only [StockDataManager.cacheFresh, StockDataManager.cache_duration, hmod,
      decide_eq_true_eq]
    exact hlt
  refine ⟨by rw [hpair], ?_⟩
  rw [hpair]
  unfold StockDataManager.get_current_price
  simp [alistLookup_insert_self, hfresh]

/-- Witness for C8 (amended) at a concrete input: empty cache, first
call at t=0 fetches 5 from its provider; the second call at t=299 with
a provider now quoting 9 still returns 5. -/
theorem c8_cache_ttl_witness :
    StockDataManager.cacheMiss [] "A" 0 = true ∧
    299 - 0 < 300 ∧
    (StockDataManager.get_current_price (fun _ => some 5) 0 [] "A").1 = some 5 ∧
    (StockDataManager.get_current_price (fun _ => some 9) 299
      (StockDataManager.get_current_price (fun _ => some 5) 0 [] "A").2 "A").1 =
      some 5 :=
  ⟨rfl, by norm_num,
   (c8_cache_ttl (fun _ => some 5) (fun _ => some 9) [] "A" 0 299 5 rfl rfl
      (by norm_num) (by norm_num)).1,
   (c8_cache_ttl (fun _ => some 5) (fun _ => some 9) [] "A" 0 299 5 rfl rfl
      (by norm_num) (by norm_num)).2⟩

/-- If some holding's symbol has data but its closest bar to `d` is
more than 7 days away, the per-date accumulation loop reports the date
invalid (`none`), whatever the running value. -/
theorem dailyValueAux_none (allData : List (String × List ChartManager.Bar))
    (d : Nat) (info : List (String × ℚ)) (acc : ℚ) (sym : String) (sh : ℚ)
    (series : List ChartManager.Bar) (bar : ChartManager.Bar)
    (hdata : alistLookup allData sym = some series)
    (hbar : ChartManager.closestBar series d = some bar)
    (hfar : 7 < ChartManager.dist bar.date d)
    (hmem : (sym, sh) ∈ info) :
    ChartManager.dailyValueAux allData d info acc = none := by
  revert hmem
  induction info generalizing acc with
  | nil => intro hmem; cases hmem
  | cons x rest ih =>
    intro hmem
    obtain ⟨s₀, q₀⟩ := x
    rcases List.mem_cons.mp hmem with heq | htail
    · injection heq with h1 h2
      subst h1
      simp only [ChartManager.dailyValueAux, hdata, hbar]
      rw [if_neg (by omega)]
    · cases h₀ : alistLookup allData s₀ with
      | none =>
        simp only [ChartManager.dailyValueAux, h₀]
        exact ih _ htail
      | some series₀ =>
        cases hb₀ : ChartManager.closestBar series₀ d with
        | none => simp only [ChartManager.dailyValueAux, h₀, hb₀]
        | some bar₀ =>
          simp only [ChartManager.dailyValueAux, h₀, hb₀]
          by_cases hd : ChartManager.dist bar₀.date d ≤ 7
          · rw [if_pos hd]; exact ih _ htail
          · rw [if_neg hd]

/-- C4 (amended): for every candidate date `d`, if some holding's
symbol has a price series in the aligned data and the closest available
date in that series is more than 7 days from `d`, then no
portfolio-value point is emitted for `d`. (The original claim's
10-calendar-day-gap clause is refuted separately: interior dates of
such a gap are at most 5 days from the gap's bounding data.) -/
theorem c4_far_closest_skips_date (hist : String → List ChartManager.Bar)
    (symbols : List String) (stocksInfo : List (String × ℚ)) (sym : String)
    (sh v : ℚ) (series : List ChartManager.Bar) (bar : ChartManager.Bar) (d : Nat)
    (hmem : (sym, sh) ∈ stocksInfo)
    (hdata : alistLookup (ChartManager.get_portfolio_historical_data hist symbols)
      sym = some series)
    (hbar : ChartManager.closestBar series d = some bar)
    (hfar : 7 < ChartManager.dist bar.date d) :
    (d, v) ∉ ChartManager.create_portfolio_performance_chart hist symbols stocksInfo := by
  intro hin
  rcases hAD : ChartManager.get_portfolio_historical_data hist symbols with _ | ⟨⟨s₀, d₀⟩, tl⟩
  · rw [hAD] at hdata
    simp [alistLookup] at hdata
  · rw [hAD] at hdata
    have hch : ChartManager.create_portfolio_performance_chart hist symbols stocksInfo =
        ChartManager.portfolioValues ((s₀, d₀) :: tl) stocksInfo
          (tl.foldl (fun m x => max m (ChartManager.minDate x.2)) (ChartManager.minDate d₀))
          (tl.foldl (fun m x => min m (ChartManager.maxDate x.2)) (ChartManager.maxDate d₀)) := by
      simp only [ChartManager.create_portfolio_performance_chart, hAD]
    rw [hch] at hin
    have hnone : ChartManager.dailyValueAux ((s₀, d₀) :: tl) d stocksInfo 0 = none :=
      dailyValueAux_none _ d stocksInfo 0 sym sh series bar hdata hbar hfar hmem
    simp only [ChartManager.portfolioValues] at hin
    obtain ⟨a, ha, hfa⟩ := List.mem_filterMap.mp hin
    have hdvnone : ChartManager.dailyValue ((s₀, d₀) :: tl) stocksInfo d = none := hnone
    by_cases hw : ChartManager.isWeekday a = true
    · rw [if_pos hw] at hfa
      split at hfa
      · rename_i v₁ hdv
        split at hfa
        · have hpair : (a, v₁) = (d, v) := Option.some.inj hfa
          have had : a = d := congrArg Prod.fst hpair
          subst had
          rw [hdv] at hdvnone
          exact Option.noConfusion hdvnone
        · exact Option.noConfusion hfa
      · exact Option.noConfusion hfa
    · rw [if_neg hw] at hfa
      exact Option.noConfusion hfa

/-- Witness for C4 (amended) at a concrete input: "A" has bars only at
days 0 and 20; candidate day 10 is 10 days from its closest bar, so no
point is emitted for day 10. -/
theorem c4_far_closest_skips_date_witness :
    ("A", (1 : ℚ)) ∈ ([("A", (1 : ℚ))]) ∧
    alistLookup (ChartManager.get_portfolio_historical_data histC4w ["A"]) "A" =
      some [⟨0, 10⟩, ⟨20, 20⟩] ∧
    ChartManager.closestBar [⟨0, 10⟩, ⟨20, 20⟩] 10 = some ⟨0, 10⟩ ∧
    7 < ChartManager.dist 0 10 ∧
    (10, (10 : ℚ)) ∉ ChartManager.create_portfolio_performance_chart histC4w ["A"]
      [("A", 1)] :=
  ⟨by simp, rfl, rfl, by decide,
   c4_far_closest_skips_date histC4w ["A"] [("A", 1)] "A" 1 10
     [⟨0, 10⟩, ⟨20, 20⟩] ⟨0, 10⟩ 10 (by simp) rfl rfl (by decide)⟩

/-- C4 counterexample (gap clause): "A" has bars only at day 0 and day
11, so days 1..10 are a 10-calendar-day gap with no data; yet the
candidate day 1, strictly inside that gap, is within 1 day of the day-0
bar and a portfolio-value point IS emitted for it. -/
theorem c4_gap_clause_cex :
    histC4 "A" = [⟨0, 10⟩, ⟨11, 20⟩] ∧
    (1, (10 : ℚ)) ∈ ChartManager.create_portfolio_performance_chart histC4 ["A"]
      [("A", 1)] := by
  refine ⟨rfl, ?_⟩
  have h1 : ChartManager.create_portfolio_performance_chart histC4 ["A"] [("A", 1)] =
      ChartManager.portfolioValues [("A", [⟨0, 10⟩, ⟨11, 20⟩])] [("A", 1)] 0 11 := rfl
  rw [h1]
  simp only [ChartManager.portfolioValues]
  refine List.mem_filterMap.mpr ⟨1, by decide, ?_⟩
  have h2 : ChartManager.dailyValue [("A", [⟨0, 10⟩, ⟨11, 20⟩])] [("A", 1)] 1 =
      some (0 + 10 * 1) := rfl
  rw [h2]
  norm_num [ChartManager.isWeekday]

/-- C3 counterexample: held symbol "B" has no historical data at all,
yet the aligner still emits a point (day 0 valued from "A" alone),
because the inner loop skips symbols absent from `all_data` instead of
invalidating the date. -/
theorem c3_no_data_symbol_cex :
    histC3 "B" = [] ∧
    (0, (10 : ℚ)) ∈ ChartManager.create_portfolio_performance_chart histC3 ["A", "B"]
      [("A", 1), ("B", 2)] := by
  refine ⟨rfl, ?_⟩
  have h1 : ChartManager.create_portfolio_performance_chart histC3 ["A", "B"]
      [("A", 1), ("B", 2)] =
      ChartManager.portfolioValues [("A", [⟨0, 10⟩])] [("A", 1), ("B", 2)] 0 0 := rfl
  rw [h1]
  simp only [ChartManager.portfolioValues]
  refine List.mem_filterMap.mpr ⟨0, by decide, ?_⟩
  have h2 : ChartManager.dailyValue [("A", [⟨0, 10⟩])] [("A", 1), ("B", 2)] 0 =
      some (0 + 10 * 1) := rfl
  rw [h2]
  norm_num [ChartManager.isWeekday]

/-- C3 (amended): the aligner emits an empty series when EVERY held
symbol has no historical data (then `all_data` is empty and the source
returns `None`); a single symbol with no data is merely skipped by the
inner loop, as the counterexample shows. -/
theorem c3_all_data_missing_empty (hist : String → List ChartManager.Bar)
    (symbols : List String) (stocksInfo : List (String × ℚ))
    (h : ∀ s ∈ symbols, hist s = []) :
    ChartManager.create_portfolio_performance_chart hist symbols stocksInfo = [] := by
  have hAD : ChartManager.get_portfolio_historical_data hist symbols = [] := by
    simp only [ChartManager.get_portfolio_historical_data]
    rw [List.filterMap_eq_nil_iff]
    intro s hs
    simp [ChartManager.get_historical_data, h s hs]
  simp only [ChartManager.create_portfolio_performance_chart, hAD]

/-- Witness for C3 (amended) at a concrete input: no symbol has any
data, and the emitted series is empty. -/
theorem c3_all_data_missing_empty_witness :
    (∀ s ∈ (["A"] : List String), (fun _ : String => ([] : List ChartManager.Bar)) s = []) ∧
    ChartManager.create_portfolio_performance_chart (fun _ => []) ["A"] [("A", 1)] = [] :=
  ⟨by simp, c3_all_data_missing_empty (fun _ => []) ["A"] [("A", 1)] (by simp)⟩

/-- `getD` commutes with `map` below the length. -/
theorem getD_map_of_lt (f : ℚ → ℚ) (l : List ℚ) (i : Nat) (hi : i < l.length) :
    (l.map f).getD i 0 = f (l.getD i 0) := by
  induction l generalizing i with
  | nil => simp at hi
  | cons a t ih =>
    cases i with
    | zero => simp
    | succ n =>
      simp only [List.map_cons, List.getD_cons_succ]
      exact ih n (by simpa using hi)

/-- The percent-change series is pointwise
`(value - first value) / first value * 100` whenever there is more than
one value. -/
theorem pctChanges_getD (vals : List ℚ) (i : Nat) (h1 : 1 < vals.length)
    (hi : i < vals.length) :
    (ChartManager.pctChanges vals).getD i 0 =
      (vals.getD i 0 - vals.getD 0 0) / vals.getD 0 0 * 100 := by
  cases vals with
  | nil => simp at h1
  | cons v₀ rest =>
    simp only [ChartManager.pctChanges]
    rw [if_pos h1, getD_map_of_lt _ _ _ hi]
    simp [List.getD_cons_zero]

/-- C7: for every emitted portfolio-value series with more than one
point, the percent-change series at each index equals
`(value[i] - value[0]) / value[0] * 100`, where `value[0]` is the value
at the first emitted point. -/
theorem c7_pct_change_series (hist : String → List ChartManager.Bar)
    (symbols : List String) (stocksInfo : List (String × ℚ)) (i : Nat)
    (h1 : 1 < (List.map Prod.snd
      (ChartManager.create_portfolio_performance_chart hist symbols stocksInfo)).length)
    (hi : i < (List.map Prod.snd
      (ChartManager.create_portfolio_performance_chart hist symbols stocksInfo)).length) :
    (ChartManager.pctChanges (List.map Prod.snd
      (ChartManager.create_portfolio_performance_chart hist symbols stocksInfo))).getD i 0 =
      ((List.map Prod.snd
          (ChartManager.create_portfolio_performance_chart hist symbols stocksInfo)).getD i 0 -
        (List.map Prod.snd
          (ChartManager.create_portfolio_performance_chart hist symbols stocksInfo)).getD 0 0) /
        (List.map Prod.snd
          (ChartManager.create_portfolio_performance_chart hist symbols stocksInfo)).getD 0 0 *
        100 :=
  pctChanges_getD _ i h1 hi

/-- The two-bar scenario's emitted series: day 0 valued 10, day 1
valued 20. -/
theorem chartC7_eval :
    ChartManager.create_portfolio_performance_chart histC7 ["A"] [("A", 1)] =
      [(0, 10), (1, 20)] := by
  have h1 : ChartManager.create_portfolio_performance_chart histC7 ["A"] [("A", 1)] =
      ChartManager.portfolioValues [("A", [⟨0, 10⟩, ⟨1, 20⟩])] [("A", 1)] 0 1 := rfl
  have hd0 : ChartManager.dailyValue [("A", [⟨0, 10⟩, ⟨1, 20⟩])] [("A", 1)] 0 =
      some (0 + 10 * 1) := rfl
  have hd1 : ChartManager.dailyValue [("A", [⟨0, 10⟩, ⟨1, 20⟩])] [("A", 1)] 1 =
      some (0 + 20 * 1) := rfl
  rw [h1]
  simp only [ChartManager.portfolioValues,
    show ChartManager.dateRange 0 1 = [0, 1] from rfl]
  simp [List.filterMap_cons, hd0, hd1, ChartManager.isWeekday]

/-- Witness for C7 at a concrete input: the two-point series [10, 20]
has percent change 100 at index 1, matching the formula. -/
theorem c7_pct_change_series_witness :
    1 < (List.map Prod.snd
      (ChartManager.create_portfolio_performance_chart histC7 ["A"] [("A", 1)])).length ∧
    (ChartManager.pctChanges (List.map Prod.snd
      (ChartManager.create_portfolio_performance_chart histC7 ["A"] [("A", 1)]))).getD 1 0 =
      ((List.map Prod.snd
          (ChartManager.create_portfolio_performance_chart histC7 ["A"] [("A", 1)])).getD 1 0 -
        (List.map Prod.snd
          (ChartManager.create_portfolio_performance_chart histC7 ["A"] [("A", 1)])).getD 0 0) /
        (List.map Prod.snd
          (ChartManager.create_portfolio_performance_chart histC7 ["A"] [("A", 1)])).getD 0 0 *
        100 :=
  ⟨by simp [chartC7_eval],
   c7_pct_change_series histC7 ["A"] [("A", 1)] 1
     (by simp [chartC7_eval]) (by simp [chartC7_eval])⟩
